import Mathlib

/-!
Verification development for the corona-sim repository.

This file gives a shallow embedding, in Lean 4, of the core simulation engine
of the repository (the health-state machine, the contact/transmission model,
the per-day statistics bookkeeping of `simulate_v2.run_simulation`, the phase
condition evaluator `test_condition`, and the day-0 seeding loop), and proves
or refutes the frozen claims about it.

Modelling conventions:
* Python's shared random source is modelled as a pair of streams
  (`Rng.floats` for `random.random()`, `Rng.ints` for `random.randint`)
  together with a cursor (`RC`) recording how many draws of each kind have
  been consumed.  A run is therefore a pure function of the configuration and
  the streams; the streams themselves are a function of the seed.
* Population counts and day counters are natural numbers; series values are
  rationals (the "confirmed" series of `simulate_v2` are real-valued because
  they are scaled by a testing probability), with the integral series of
  `exercise_2.py` kept as integers.
* In-place removal of a person from the population is modelled by returning
  `none` from the health evaluation of that person; in-place mutation of list
  elements during the contact pass is modelled with `List.set`.
-/

/-- Health states of `HEALTH_STATES` in `exercise_2.py` / `exercise_3d.py`. -/
inductive HState where
  | well
  | infected
  | contagious
  | recovering
  | immune
  | dead
deriving DecidableEq, Repr, Inhabited

open HState

/-- One entry of the `HEALTH_STATES` table: `days at state` (with `-1` as the
indefinite sentinel), `can be infected`, `next state`, `death rate`. -/
structure StateDef where
  daysAtState : ℤ
  canBeInfected : Bool
  nextState : HState
  deathRate : ℚ
deriving DecidableEq, Repr

/-- The `HEALTH_STATES` table of `exercise_2.py` (identical in
`exercise_3d.py`).  The `dead` entry of the Python dict has no
`next state` / `death rate` keys and is never advanced; we give it inert
values. -/
def HEALTH_STATES : HState → StateDef
  | .well => ⟨-1, true, .infected, 0⟩
  | .infected => ⟨2, false, .contagious, 0⟩
  | .contagious => ⟨4, false, .recovering, 3 / 100⟩
  | .recovering => ⟨10, false, .immune, 0⟩
  | .immune => ⟨-1, false, .well, 0⟩
  | .dead => ⟨-1, false, .dead, 0⟩

/-- A person record: `{'id': ..., 'state': ..., 'days': ...}`. -/
structure Person where
  id : ℕ
  state : HState
  days : ℕ
deriving DecidableEq, Repr

instance : Inhabited Person := ⟨⟨0, well, 1⟩⟩

/-- The deterministic random source: a stream of floats for
`random.random()` and a stream of naturals for `random.randint`. -/
structure Rng where
  floats : ℕ → ℚ
  ints : ℕ → ℕ

/-- Cursor into the two random streams. -/
structure RC where
  fi : ℕ
  ii : ℕ
deriving DecidableEq, Repr

/-- One call of `random.random()`. -/
def randFloat (rng : Rng) (c : RC) : ℚ × RC :=
  (rng.floats c.fi, ⟨c.fi + 1, c.ii⟩)

/-- One call of `random.randint(0, n - 1)`: a value in `[0, n-1]`. -/
def randBelow (rng : Rng) (c : RC) (n : ℕ) : ℕ × RC :=
  (rng.ints c.ii % n, ⟨c.fi, c.ii + 1⟩)

/-- Validity of the float stream: `random.random()` yields values in
`[0, 1)`. -/
def validRng (rng : Rng) : Prop :=
  ∀ i, 0 ≤ rng.floats i ∧ rng.floats i < 1

/-! ### List helpers -/

theorem getD_append_lt {α : Type} (l l2 : List α) (d : α) :
    ∀ n, n < l.length → (l ++ l2).getD n d = l.getD n d := by
  induction l with
  | nil => intro n h; simp at h
  | cons a t ih =>
    intro n h
    cases n with
    | zero => rfl
    | succ m => exact ih m (by simpa using h)

theorem getD_append_self {α : Type} (l : List α) (v d : α) :
    (l ++ [v]).getD l.length d = v := by
  induction l with
  | nil => rfl
  | cons a t ih => simp [ih]

theorem getD_of_length_le {α : Type} (l : List α) (d : α) :
    ∀ n, l.length ≤ n → l.getD n d = d := by
  induction l with
  | nil => intro n _; cases n <;> rfl
  | cons a t ih =>
    intro n h
    cases n with
    | zero => simp at h
    | succ m => exact ih m (by simpa using h)

theorem mem_set_cases {α : Type} (l : List α) (k : ℕ) (v x : α)
    (hx : x ∈ l.set k v) : x ∈ l ∨ x = v := by
  induction l generalizing k with
  | nil => simp at hx
  | cons a t ih =>
    cases k with
    | zero =>
      rcases List.mem_cons.mp hx with h | h
      · right; exact h
      · left; exact List.mem_cons_of_mem _ h
    | succ m =>
      rcases List.mem_cons.mp hx with h | h
      · left; exact h ▸ List.mem_cons_self _ _
      · rcases ih m h with h2 | h2
        · left; exact List.mem_cons_of_mem _ h2
        · right; exact h2

theorem getD_map_zero (f : ℚ → ℚ) : ∀ (l : List ℚ) (n : ℕ), n < l.length →
    (l.map f).getD n 0 = f (l.getD n 0) := by
  intro l
  induction l with
  | nil => intro n h; simp at h
  | cons a t ih =>
    intro n h
    cases n with
    | zero => rfl
    | succ m => exact ih m (by simpa using h)

/-! ### The statistics aggregator of `simulate_v2.run_simulation`

The per-day append block (`simulate_v2.py` lines 264-313) and the day `-1`
seeding block (lines 211-231) are transcribed below.  The block consumes the
eight counters of the current day, which we bundle in `Daily`. -/

/-- Today's counters (`DAILY_CASES`, `DAILY_CONFIRMED_CASES`, ...), the input
of the per-day statistics append block. -/
structure Daily where
  cases : ℚ
  confirmedCases : ℚ
  recoveries : ℚ
  confirmedRecoveries : ℚ
  deaths : ℚ
  confirmedDeaths : ℚ
  hospitalizations : ℚ
  icu : ℚ
deriving DecidableEq, Repr

instance : Inhabited Daily := ⟨⟨0, 0, 0, 0, 0, 0, 0, 0⟩⟩

/-- The series and running-maxima portion of the simulation state
(`create_initial_state` in `simulate_v2.py`).  Field names follow the key
constants of `simulate_v2.py`; the string each series is keyed by appears in
`seriesByLabel` below. -/
structure V2Stats where
  cumulativeCases : List ℚ
  cumulativeConfirmedCases : List ℚ
  cumulativeRecoveries : List ℚ
  cumulativeConfirmedRecoveries : List ℚ
  cumulativeDeaths : List ℚ
  cumulativeConfirmedDeaths : List ℚ
  activeCases : List ℚ
  activeConfirmedCases : List ℚ
  activeHospitalizedCases : List ℚ
  activeICUCases : List ℚ
  newCases : List ℚ
  newConfirmedCases : List ℚ
  newActiveCases : List ℚ
  newConfirmedActiveCases : List ℚ
  newRecoveries : List ℚ
  newDeaths : List ℚ
  maxNewDailyCases : ℕ
  maxNewDailyConfirmedCases : ℕ
  maxActiveCases : ℕ
  maxActiveConfirmedCases : ℕ
  maxActiveHospitalizations : ℕ
  maxActiveICU : ℕ
deriving Repr

/-- Transcription of `ss[X].append(ss[X][day] + delta)`. -/
def appendIdx (s : List ℚ) (day : ℕ) (delta : ℚ) : List ℚ :=
  s ++ [s.getD day 0 + delta]

/-- Transcription of `if ss[X][day + 1] > ss[X][ss[MAX_X]]: ss[MAX_X] = day + 1`,
applied to the series after today's append. -/
def maxUpd (s : List ℚ) (day : ℕ) (m : ℕ) : ℕ :=
  if s.getD (day + 1) 0 > s.getD m 0 then day + 1 else m

/-- The day `-1` seeding append block (`simulate_v2.py` lines 211-231):
every series is seeded with its day-0 value computed from the counters left
by the seeding loop. -/
def statsInit (d : Daily) : V2Stats where
  cumulativeCases := [d.cases]
  cumulativeConfirmedCases := [d.confirmedCases]
  cumulativeRecoveries := [d.recoveries]
  cumulativeConfirmedRecoveries := [d.confirmedRecoveries]
  cumulativeDeaths := [d.deaths]
  cumulativeConfirmedDeaths := [d.confirmedDeaths]
  activeCases := [d.cases - d.recoveries - d.deaths]
  activeConfirmedCases := [d.confirmedCases - d.confirmedRecoveries - d.confirmedDeaths]
  activeHospitalizedCases := [d.hospitalizations]
  activeICUCases := [d.icu]
  newCases := [d.cases]
  newConfirmedCases := [d.confirmedCases]
  newActiveCases := [d.cases - d.recoveries - d.deaths]
  newConfirmedActiveCases := [d.confirmedCases - d.confirmedRecoveries - d.deaths]
  newRecoveries := [d.recoveries]
  newDeaths := [d.deaths]
  maxNewDailyCases := 0
  maxNewDailyConfirmedCases := 0
  maxActiveCases := 0
  maxActiveConfirmedCases := 0
  maxActiveHospitalizations := 0
  maxActiveICU := 0

/-- The per-day statistics append block (`simulate_v2.py` lines 264-313),
including the six running-maximum updates. -/
def statsStep (st : V2Stats) (day : ℕ) (d : Daily) : V2Stats :=
  let cumulativeCases := appendIdx st.cumulativeCases day d.cases
  let cumulativeConfirmedCases := appendIdx st.cumulativeConfirmedCases day d.confirmedCases
  let activeCases := appendIdx st.activeCases day (d.cases - d.recoveries - d.deaths)
  let maxActiveCases := maxUpd activeCases day st.maxActiveCases
  let activeConfirmedCases := appendIdx st.activeConfirmedCases day
    (d.confirmedCases - d.confirmedRecoveries - d.confirmedDeaths)
  let maxActiveConfirmedCases := maxUpd activeConfirmedCases day st.maxActiveConfirmedCases
  let activeHospitalizedCases := appendIdx st.activeHospitalizedCases day d.hospitalizations
  let maxActiveHospitalizations := maxUpd activeHospitalizedCases day st.maxActiveHospitalizations
  let activeICUCases := appendIdx st.activeICUCases day d.icu
  let maxActiveICU := maxUpd activeICUCases day st.maxActiveICU
  let cumulativeRecoveries := appendIdx st.cumulativeRecoveries day d.recoveries
  let cumulativeConfirmedRecoveries :=
    appendIdx st.cumulativeConfirmedRecoveries day d.confirmedRecoveries
  let cumulativeDeaths := appendIdx st.cumulativeDeaths day d.deaths
  let cumulativeConfirmedDeaths := appendIdx st.cumulativeConfirmedDeaths day d.confirmedDeaths
  let newCases := st.newCases ++ [d.cases]
  let maxNewDailyCases := maxUpd newCases day st.maxNewDailyCases
  let newConfirmedCases := st.newConfirmedCases ++ [d.confirmedCases]
  let maxNewDailyConfirmedCases := maxUpd newConfirmedCases day st.maxNewDailyConfirmedCases
  let newActiveCases := st.newActiveCases ++ [d.cases - d.recoveries - d.deaths]
  let newConfirmedActiveCases := st.newConfirmedActiveCases ++
    [d.confirmedCases - d.confirmedRecoveries - d.deaths]
  let newRecoveries := st.newRecoveries ++ [d.recoveries]
  let newDeaths := st.newDeaths ++ [d.deaths]
  { cumulativeCases, cumulativeConfirmedCases, cumulativeRecoveries,
    cumulativeConfirmedRecoveries, cumulativeDeaths, cumulativeConfirmedDeaths,
    activeCases, activeConfirmedCases, activeHospitalizedCases, activeICUCases,
    newCases, newConfirmedCases, newActiveCases, newConfirmedActiveCases,
    newRecoveries, newDeaths,
    maxNewDailyCases, maxNewDailyConfirmedCases, maxActiveCases,
    maxActiveConfirmedCases, maxActiveHospitalizations, maxActiveICU }

/-- The day loop of `run_simulation` restricted to the statistics it appends:
day 0 is seeded by the `day == -1` block, then one `statsStep` per simulated
day. -/
def statsGo (st : V2Stats) (day : ℕ) : List Daily → V2Stats
  | [] => st
  | d :: rest => statsGo (statsStep st day d) (day + 1) rest

/-- The statistics of a whole run: the seeding-day counters followed by the
counters of each simulated day. -/
def statsRun (seed : Daily) (ds : List Daily) : V2Stats :=
  statsGo (statsInit seed) 0 ds

/-! ### Claim C1: conservation of active cases -/

/-- Invariant used for C1: the four true-count series have length `day + 1`
and satisfy the conservation identity at every index. -/
def ConsInv (st : V2Stats) (day : ℕ) : Prop :=
  st.activeCases.length = day + 1 ∧
  st.cumulativeCases.length = day + 1 ∧
  st.cumulativeRecoveries.length = day + 1 ∧
  st.cumulativeDeaths.length = day + 1 ∧
  ∀ n, st.activeCases.getD n 0 =
    st.cumulativeCases.getD n 0 - st.cumulativeRecoveries.getD n 0 -
      st.cumulativeDeaths.getD n 0

theorem consInv_init (seed : Daily) : ConsInv (statsInit seed) 0 := by
  refine ⟨rfl, rfl, rfl, rfl, ?_⟩
  intro n
  cases n with
  | zero => simp [statsInit]
  | succ m => simp [statsInit]

theorem consInv_step (st : V2Stats) (day : ℕ) (d : Daily)
    (h : ConsInv st day) : ConsInv (statsStep st day d) (day + 1) := by
  obtain ⟨ha, hc, hr, hd, hid⟩ := h
  refine ⟨?_, ?_, ?_, ?_, ?_⟩
  · simp [statsStep, appendIdx, ha]
  · simp [statsStep, appendIdx, hc]
  · simp [statsStep, appendIdx, hr]
  · simp [statsStep, appendIdx, hd]
  · intro n
    simp only [statsStep, appendIdx]
    rcases lt_trichotomy n (day + 1) with hn | hn | hn
    · rw [getD_append_lt _ _ _ n (by rw [ha]; exact hn),
        getD_append_lt _ _ _ n (by rw [hc]; exact hn),
        getD_append_lt _ _ _ n (by rw [hr]; exact hn),
        getD_append_lt _ _ _ n (by rw [hd]; exact hn)]
      exact hid n
    · subst hn
      rw [show day + 1 = st.activeCases.length from ha.symm, getD_append_self,
        show st.activeCases.length = st.cumulativeCases.length from by rw [ha, hc],
        getD_append_self,
        show st.cumulativeCases.length = st.cumulativeRecoveries.length from by rw [hc, hr],
        getD_append_self,
        show st.cumulativeRecoveries.length = st.cumulativeDeaths.length from by rw [hr, hd],
        getD_append_self]
      rw [hid day]
      ring
    · rw [getD_of_length_le _ _ n (by simp [ha]; omega),
        getD_of_length_le _ _ n (by simp [hc]; omega),
        getD_of_length_le _ _ n (by simp [hr]; omega),
        getD_of_length_le _ _ n (by simp [hd]; omega)]
      norm_num

theorem consInv_go (ds : List Daily) : ∀ (st : V2Stats) (day : ℕ),
    ConsInv st day → ConsInv (statsGo st day ds) (day + ds.length) := by
  induction ds with
  | nil => intro st day h; simpa using h
  | cons d rest ih =>
    intro st day h
    have := ih (statsStep st day d) (day + 1) (consInv_step st day d h)
    simpa [statsGo, Nat.add_assoc, Nat.add_comm 1 rest.length] using this

/-- C1.  For every simulated day `d` (index 0 through the end of the run),
the active-cases series of `run_simulation` satisfies
`active_cases[d] = cumulative_cases[d] - cumulative_recoveries[d] -
cumulative_deaths[d]`, where each cumulative series is built by the
recurrence `series[day+1] = series[day] + today's delta` (the append block of
`simulate_v2.py`; indices beyond the run read the default 0 on both sides). -/
theorem conservation_of_active_cases (seed : Daily) (ds : List Daily) (n : ℕ) :
    (statsRun seed ds).activeCases.getD n 0 =
      (statsRun seed ds).cumulativeCases.getD n 0 -
        (statsRun seed ds).cumulativeRecoveries.getD n 0 -
        (statsRun seed ds).cumulativeDeaths.getD n 0 :=
  (consInv_go ds (statsInit seed) 0 (consInv_init seed)).2.2.2.2 n

/-! ### The per-person engine of `exercise_2.py` / `exercise_3d.py`

The health-state update (`exercise_2.py` lines 107-126,
`exercise_3d.advance_health_state`), the two contact loops
(`exercise_2.py` lines 128-158, `exercise_3d.evaluate_contacts`) and the day
loop of `exercise_2.py`. -/

/-- Counters of the current day plus the running population count
(`new_cases`, `new_recoveries`, `new_deaths`, `current_population`). -/
structure DayCtr where
  cases : ℕ
  recoveries : ℕ
  deaths : ℕ
  pop : ℕ
deriving DecidableEq, Repr

/-- Advancing a person whose duration elapsed and who did not die
(`exercise_2.py` lines 120-126): move to the configured next state, reset
days-in-state to 1, and count a recovery when the new state is `immune`. -/
def advancePerson (T : HState → StateDef) (q : Person) (ctr : DayCtr) (c : RC) :
    Option Person × DayCtr × RC :=
  let q2 : Person := { q with state := (T q.state).nextState, days := 1 }
  if q2.state = immune then
    (some q2, { ctr with recoveries := ctr.recoveries + 1 }, c)
  else
    (some q2, ctr, c)

/-- The per-person health update (`exercise_2.py` lines 108-126): increment
days-in-state; once the configured finite duration is exceeded, either die
(when the state's death rate is positive and the uniform draw is below it;
the person is removed and counted) or advance to the next state. -/
def evalHealth (T : HState → StateDef) (rng : Rng) (q : Person) (ctr : DayCtr) (c : RC) :
    Option Person × DayCtr × RC :=
  let hs := T q.state
  let q1 : Person := { q with days := q.days + 1 }
  if 0 < hs.daysAtState ∧ hs.daysAtState < (q1.days : ℤ) then
    if hs.deathRate > 0 then
      let (u, c1) := randFloat rng c
      if u < hs.deathRate then
        (none, { ctr with deaths := ctr.deaths + 1, pop := ctr.pop - 1 }, c1)
      else
        advancePerson T q1 ctr c1
    else
      advancePerson T q1 ctr c
  else
    (some q1, ctr, c)

/-- The health pass over `reversed(people)` with in-place removal of the
dead: the input list is the population in reverse order, processed head
first. -/
def healthPassRev (T : HState → StateDef) (rng : Rng) :
    List Person → DayCtr → RC → List Person × DayCtr × RC
  | [], ctr, c => ([], ctr, c)
  | q :: rest, ctr, c =>
    let r := evalHealth T rng q ctr c
    match r.1 with
    | none => healthPassRev T rng rest r.2.1 r.2.2
    | some q1 =>
      let rest1 := healthPassRev T rng rest r.2.1 r.2.2
      (q1 :: rest1.1, rest1.2.1, rest1.2.2)

/-- The health pass `for person in reversed(people)` of `exercise_2.py`
(line 107): iterate from the end of the list so removal never skips or
reprocesses anyone. -/
def healthPass (T : HState → StateDef) (rng : Rng) (ps : List Person)
    (ctr : DayCtr) (c : RC) : List Person × DayCtr × RC :=
  let r := healthPassRev T rng ps.reverse ctr c
  (r.1.reverse, r.2.1, r.2.2)

/-- The susceptible-initiated contact loop (`exercise_2.py` lines 131-145,
`exercise_3d.evaluate_contacts` first branch) for the person at index `i`:
sample `n` contacts; on a contagious contact draw; on success the person
becomes infected with days reset to 1, a new case is counted, and the loop
breaks. -/
def susLoop (T : HState → StateDef) (rng : Rng) (p : ℚ) :
    ℕ → List Person → ℕ → DayCtr → RC → List Person × DayCtr × RC
  | 0, people, _, ctr, c => (people, ctr, c)
  | n + 1, people, i, ctr, c =>
    let (k, c1) := randBelow rng c ctr.pop
    let contact := people.getD k default
    if contact.state = contagious then
      let (u, c2) := randFloat rng c1
      if u < p then
        (people.set i { people.getD i default with state := infected, days := 1 },
          { ctr with cases := ctr.cases + 1 }, c2)
      else
        susLoop T rng p n people i ctr c2
    else
      susLoop T rng p n people i ctr c1

/-- The contagious-initiated contact loop (`exercise_2.py` lines 147-158,
`exercise_3d.evaluate_contacts` second branch) for the person at index `i`:
sample `n` contacts; every susceptible contact is independently tested and
infected on success; the loop never breaks. -/
def contagLoop (T : HState → StateDef) (rng : Rng) (p : ℚ) :
    ℕ → List Person → ℕ → DayCtr → RC → List Person × DayCtr × RC
  | 0, people, _, ctr, c => (people, ctr, c)
  | n + 1, people, i, ctr, c =>
    let (k, c1) := randBelow rng c ctr.pop
    let contact := people.getD k default
    if (T contact.state).canBeInfected then
      let (u, c2) := randFloat rng c1
      if u < p then
        contagLoop T rng p n
          (people.set k { contact with state := infected, days := 1 }) i
          { ctr with cases := ctr.cases + 1 } c2
      else
        contagLoop T rng p n people i ctr c2
    else
      contagLoop T rng p n people i ctr c1

/-- Transcription of `exercise_3d.evaluate_contacts`: both branches sample
`int(daily_contacts / 2)` contacts from the living population. -/
def evaluate_contacts (T : HState → StateDef) (rng : Rng) (p : ℚ) (contacts : ℕ)
    (people : List Person) (i : ℕ) (ctr : DayCtr) (c : RC) :
    List Person × DayCtr × RC :=
  let person := people.getD i default
  if (T person.state).canBeInfected then
    susLoop T rng p (contacts / 2) people i ctr c
  else if person.state = contagious then
    contagLoop T rng p (contacts / 2) people i ctr c
  else
    (people, ctr, c)

/-- The contact pass `for person in people` (`exercise_2.py` line 128):
`rem` counts the persons still to visit; the list length never changes
during the pass. -/
def contactPass (T : HState → StateDef) (rng : Rng) (p : ℚ) (contacts : ℕ) :
    List Person → ℕ → ℕ → DayCtr → RC → List Person × DayCtr × RC
  | people, _, 0, ctr, c => (people, ctr, c)
  | people, i, rem + 1, ctr, c =>
    let e := evaluate_contacts T rng p contacts people i ctr c
    contactPass T rng p contacts e.1 (i + 1) rem e.2.1 e.2.2

/-! ### The day loop and statistics of `exercise_2.py` -/

/-- The tracking series and maxima of `exercise_2.py` (lines 83-95). -/
structure Ex2Stats where
  cumulativeCases : List ℤ
  activeCases : List ℤ
  cumulativeRecoveries : List ℤ
  cumulativeDeaths : List ℤ
  dailyNewCases : List ℤ
  dailyNewActiveCases : List ℤ
  dailyNewRecoveries : List ℤ
  dailyNewDeaths : List ℤ
  maximumActiveCases : ℤ
  maximumActiveCasesDay : ℕ
  maximumDailyNewCases : ℕ
  maximumNewCasesDay : ℕ
  maximumNewCasesCumulative : ℤ
deriving DecidableEq, Repr

/-- Transcription of `series.append(series[day] + delta)` for the integer
series of `exercise_2.py`. -/
def appendIdxZ (s : List ℤ) (day : ℕ) (delta : ℤ) : List ℤ :=
  s ++ [s.getD day 0 + delta]

/-- Initial tracking values of `exercise_2.py` (lines 83-95). -/
def ex2StatsInit (initialInfection : ℕ) : Ex2Stats where
  cumulativeCases := [(initialInfection : ℤ)]
  activeCases := [(initialInfection : ℤ)]
  cumulativeRecoveries := [0]
  cumulativeDeaths := [0]
  dailyNewCases := [0]
  dailyNewActiveCases := [0]
  dailyNewRecoveries := [0]
  dailyNewDeaths := [0]
  maximumActiveCases := 0
  maximumActiveCasesDay := 0
  maximumDailyNewCases := 0
  maximumNewCasesDay := 0
  maximumNewCasesCumulative := 0

/-- The statistics append block of `exercise_2.py` (lines 160-175),
including its two value-based running maxima. -/
def ex2StatsAppend (st : Ex2Stats) (day : ℕ) (newCases newRecoveries newDeaths : ℕ) :
    Ex2Stats :=
  let cumulativeCases := appendIdxZ st.cumulativeCases day (newCases : ℤ)
  let activeCases := appendIdxZ st.activeCases day
    ((newCases : ℤ) - (newRecoveries : ℤ) - (newDeaths : ℤ))
  let hitActive := activeCases.getD (day + 1) 0 > st.maximumActiveCases
  let maximumActiveCases := if hitActive then activeCases.getD (day + 1) 0
    else st.maximumActiveCases
  let maximumActiveCasesDay := if hitActive then day else st.maximumActiveCasesDay
  let cumulativeRecoveries := appendIdxZ st.cumulativeRecoveries day (newRecoveries : ℤ)
  let cumulativeDeaths := appendIdxZ st.cumulativeDeaths day (newDeaths : ℤ)
  let hitNew := st.maximumDailyNewCases < newCases
  let maximumDailyNewCases := if hitNew then newCases else st.maximumDailyNewCases
  let maximumNewCasesDay := if hitNew then day else st.maximumNewCasesDay
  let maximumNewCasesCumulative := if hitNew then cumulativeCases.getD (day + 1) 0
    else st.maximumNewCasesCumulative
  let dailyNewCases := st.dailyNewCases ++ [(newCases : ℤ)]
  let dailyNewActiveCases := st.dailyNewActiveCases ++
    [(newCases : ℤ) - (newRecoveries : ℤ) - (newDeaths : ℤ)]
  let dailyNewRecoveries := st.dailyNewRecoveries ++ [(newRecoveries : ℤ)]
  let dailyNewDeaths := st.dailyNewDeaths ++ [(newDeaths : ℤ)]
  { cumulativeCases, activeCases, cumulativeRecoveries, cumulativeDeaths,
    dailyNewCases, dailyNewActiveCases, dailyNewRecoveries, dailyNewDeaths,
    maximumActiveCases, maximumActiveCasesDay, maximumDailyNewCases,
    maximumNewCasesDay, maximumNewCasesCumulative }

/-- The mutable state threaded through the day loop of `exercise_2.py`. -/
structure Ex2State where
  people : List Person
  pop : ℕ
  c : RC
  stats : Ex2Stats
deriving Repr

/-- One simulated day of `exercise_2.py` (lines 102-175): reset today's
counters, run the health pass in reverse order, run the contact pass over the
living population (sampling reflects the population after today's removals),
then append today's statistics. -/
def ex2DayStep (T : HState → StateDef) (rng : Rng) (contacts : ℕ) (p : ℚ)
    (st : Ex2State) (day : ℕ) : Ex2State :=
  let ctr0 : DayCtr := { cases := 0, recoveries := 0, deaths := 0, pop := st.pop }
  let h := healthPass T rng st.people ctr0 st.c
  let cp := contactPass T rng p contacts h.1 0 h.1.length h.2.1 h.2.2
  { people := cp.1, pop := cp.2.1.pop, c := cp.2.2,
    stats := ex2StatsAppend st.stats day cp.2.1.cases cp.2.1.recoveries cp.2.1.deaths }

/-- The day loop `for day in range(SIMULATION_DAYS)`. -/
def ex2Go (T : HState → StateDef) (rng : Rng) (contacts : ℕ) (p : ℚ) :
    Ex2State → ℕ → ℕ → Ex2State
  | st, _, 0 => st
  | st, day, rem + 1 => ex2Go T rng contacts p (ex2DayStep T rng contacts p st day) (day + 1) rem

/-- The healthy initial population of `exercise_2.py` (lines 58-62). -/
def initialPeople (population : ℕ) : List Person :=
  (List.range population).map (fun n => { id := n, state := well, days := 1 })

/-- The initial-infection loop of `exercise_2.py` (lines 68-69): repeat
`initialInfection` times, each time forcing a randomly selected individual
into the contagious state. -/
def seedInitial (rng : Rng) (population : ℕ) :
    ℕ → List Person → RC → List Person × RC
  | 0, people, c => (people, c)
  | k + 1, people, c =>
    let (j, c1) := randBelow rng c population
    seedInitial rng population k
      (people.set j { people.getD j default with state := contagious }) c1

/-- A full configuration of the `exercise_2.py` simulation. -/
structure SimConfig where
  T : HState → StateDef
  population : ℕ
  initialInfection : ℕ
  simulationDays : ℕ
  dailyContacts : ℕ
  transmissionProbability : ℚ

/-- The whole `exercise_2.py` simulation as a pure function of the
configuration and the random streams. -/
def runEx2 (cfg : SimConfig) (rng : Rng) : Ex2State :=
  let people0 := initialPeople cfg.population
  let seeded := seedInitial rng cfg.population cfg.initialInfection people0 ⟨0, 0⟩
  let st0 : Ex2State :=
    { people := seeded.1, pop := cfg.population, c := seeded.2,
      stats := ex2StatsInit cfg.initialInfection }
  ex2Go cfg.T rng cfg.dailyContacts cfg.transmissionProbability st0 0 cfg.simulationDays

/-! ### Series labels and `write_data` (`simulate_v2.py` lines 67-94, 316-333)

In `simulate_v2.py` the simulation-state dict keys the series by label
strings; `write_data` copies `data[key] = ss[key]` for every key in
`_SERIALIZE_KEYS`.  The two death labels are transcribed exactly as they
appear on lines 71-72 of the source. -/

def CUMULATIVE_CASES_SERIES : String := "cumulative cases"

def CUMULATIVE_CONFIRMED_CASES_SERIES : String := "cumulative confirmed cases"

def CUMULATIVE_RECOVERIES_SERIES : String := "cumulative recoveries"

def CUMULATIVE_CONFIRMED_RECOVERIES_SERIES : String := "cumulative confirmed recoveries"

def CUMULATIVE_DEATHS_SERIES : String := "cumulative confirmed deaths"

def CUMULATIVE_CONFIRMED_DEATHS_SERIES : String := "cumulative deaths"

def ACTIVE_CASES_SERIES : String := "active cases"

def ACTIVE_CONFIRMED_CASES_SERIES : String := "active confirmed cases"

def ACTIVE_HOSPITALIZED_CASES_SERIES : String := "active hospitalized cases"

def ACTIVE_ICU_CASES_SERIES : String := "active ICU cases"

def NEW_CASES_SERIES : String := "new cases"

def NEW_CONFIRMED_CASES_SERIES : String := "new confirmed cases"

def NEW_ACTIVE_CASES_SERIES : String := "new active cases"

def NEW_CONFIRMED_ACTIVE_CASES_SERIES : String := "new confirmed active cases"

def NEW_RECOVERIES_SERIES : String := "new recoveries"

def NEW_DEATHS_SERIES : String := "new deaths"

/-- The series portion of the record serialized by `write_data`: looking up a
label string returns the series stored in the state dict under that key
(`data[key] = ss[key]` over the series keys of `_SERIALIZE_KEYS`). -/
def seriesByLabel (st : V2Stats) (label : String) : Option (List ℚ) :=
  if label = CUMULATIVE_CASES_SERIES then some st.cumulativeCases
  else if label = CUMULATIVE_CONFIRMED_CASES_SERIES then some st.cumulativeConfirmedCases
  else if label = CUMULATIVE_RECOVERIES_SERIES then some st.cumulativeRecoveries
  else if label = CUMULATIVE_CONFIRMED_RECOVERIES_SERIES then some st.cumulativeConfirmedRecoveries
  else if label = CUMULATIVE_DEATHS_SERIES then some st.cumulativeDeaths
  else if label = CUMULATIVE_CONFIRMED_DEATHS_SERIES then some st.cumulativeConfirmedDeaths
  else if label = ACTIVE_CASES_SERIES then some st.activeCases
  else if label = ACTIVE_CONFIRMED_CASES_SERIES then some st.activeConfirmedCases
  else if label = ACTIVE_HOSPITALIZED_CASES_SERIES then some st.activeHospitalizedCases
  else if label = ACTIVE_ICU_CASES_SERIES then some st.activeICUCases
  else if label = NEW_CASES_SERIES then some st.newCases
  else if label = NEW_CONFIRMED_CASES_SERIES then some st.newConfirmedCases
  else if label = NEW_ACTIVE_CASES_SERIES then some st.newActiveCases
  else if label = NEW_CONFIRMED_ACTIVE_CASES_SERIES then some st.newConfirmedActiveCases
  else if label = NEW_RECOVERIES_SERIES then some st.newRecoveries
  else if label = NEW_DEATHS_SERIES then some st.newDeaths
  else none

/-! ### Characterizing the series of a run -/

/-- Successive cumulative appends starting from series `s` at index `day`,
one `appendIdx` per daily delta. -/
def cumulApp (s : List ℚ) (day : ℕ) : List ℚ → List ℚ
  | [] => s
  | x :: xs => cumulApp (appendIdx s day x) (day + 1) xs

theorem cumulApp_length : ∀ (deltas : List ℚ) (s : List ℚ) (day : ℕ),
    (cumulApp s day deltas).length = s.length + deltas.length := by
  intro deltas
  induction deltas with
  | nil => intro s day; simp [cumulApp]
  | cons x xs ih =>
    intro s day
    simp [cumulApp, ih, appendIdx]
    omega

theorem cumulApp_getD_frozen : ∀ (deltas : List ℚ) (s : List ℚ) (day n : ℕ),
    n < s.length → (cumulApp s day deltas).getD n 0 = s.getD n 0 := by
  intro deltas
  induction deltas with
  | nil => intro s day n _; rfl
  | cons x xs ih =>
    intro s day n hn
    have h1 : n < (appendIdx s day x).length := by
      simp [appendIdx]; omega
    rw [show cumulApp s day (x :: xs) = cumulApp (appendIdx s day x) (day + 1) xs from rfl,
      ih _ _ _ h1]
    exact getD_append_lt s _ 0 n hn

theorem cumulApp_diff : ∀ (deltas : List ℚ) (s : List ℚ) (day : ℕ),
    s.length = day + 1 → ∀ n, n < deltas.length →
      (cumulApp s day deltas).getD (day + 1 + n) 0 -
        (cumulApp s day deltas).getD (day + n) 0 = deltas.getD n 0 := by
  intro deltas
  induction deltas with
  | nil => intro s day _ n hn; simp at hn
  | cons x xs ih =>
    intro s day hlen n hn
    rw [show cumulApp s day (x :: xs) = cumulApp (appendIdx s day x) (day + 1) xs from rfl]
    have hlen1 : (appendIdx s day x).length = day + 2 := by simp [appendIdx]; omega
    cases n with
    | zero =>
      have hfr1 : (cumulApp (appendIdx s day x) (day + 1) xs).getD (day + 1) 0 =
          (appendIdx s day x).getD (day + 1) 0 :=
        cumulApp_getD_frozen xs _ _ _ (by omega)
      have hfr0 : (cumulApp (appendIdx s day x) (day + 1) xs).getD day 0 =
          (appendIdx s day x).getD day 0 :=
        cumulApp_getD_frozen xs _ _ _ (by omega)
      have e1 : (appendIdx s day x).getD (day + 1) 0 = s.getD day 0 + x := by
        unfold appendIdx
        rw [show day + 1 = s.length from hlen.symm]
        exact getD_append_self s _ 0
      have e0 : (appendIdx s day x).getD day 0 = s.getD day 0 :=
        getD_append_lt s _ 0 day (by omega)
      simp only [Nat.add_zero]
      rw [hfr1, hfr0, e1, e0]
      ring_nf
      rfl
    | succ m =>
      have := ih (appendIdx s day x) (day + 1) hlen1 m (by simpa using hn)
      have ea : day + 1 + (m + 1) = day + 1 + 1 + m := by omega
      have eb : day + (m + 1) = day + 1 + m := by omega
      rw [ea, eb]
      simpa using this

theorem statsGo_cumulativeDeaths (ds : List Daily) : ∀ (st : V2Stats) (day : ℕ),
    (statsGo st day ds).cumulativeDeaths =
      cumulApp st.cumulativeDeaths day (ds.map (fun d => d.deaths)) := by
  induction ds with
  | nil => intro st day; rfl
  | cons d rest ih =>
    intro st day
    simp only [statsGo, List.map_cons, cumulApp]
    rw [ih]
    rfl

theorem statsGo_cumulativeConfirmedDeaths (ds : List Daily) : ∀ (st : V2Stats) (day : ℕ),
    (statsGo st day ds).cumulativeConfirmedDeaths =
      cumulApp st.cumulativeConfirmedDeaths day (ds.map (fun d => d.confirmedDeaths)) := by
  induction ds with
  | nil => intro st day; rfl
  | cons d rest ih =>
    intro st day
    simp only [statsGo, List.map_cons, cumulApp]
    rw [ih]
    rfl

theorem statsGo_activeConfirmedCases (ds : List Daily) : ∀ (st : V2Stats) (day : ℕ),
    (statsGo st day ds).activeConfirmedCases =
      cumulApp st.activeConfirmedCases day
        (ds.map (fun d => d.confirmedCases - d.confirmedRecoveries - d.confirmedDeaths)) := by
  induction ds with
  | nil => intro st day; rfl
  | cons d rest ih =>
    intro st day
    simp only [statsGo, List.map_cons, cumulApp]
    rw [ih]
    rfl

theorem statsGo_newConfirmedActiveCases (ds : List Daily) : ∀ (st : V2Stats) (day : ℕ),
    (statsGo st day ds).newConfirmedActiveCases =
      st.newConfirmedActiveCases ++
        ds.map (fun d => d.confirmedCases - d.confirmedRecoveries - d.deaths) := by
  induction ds with
  | nil => intro st day; simp [statsGo]
  | cons d rest ih =>
    intro st day
    simp only [statsGo, List.map_cons]
    rw [ih]
    simp [statsStep]

theorem getD_map_daily (f : Daily → ℚ) : ∀ (l : List Daily) (n : ℕ), n < l.length →
    (l.map f).getD n 0 = f (l.getD n default) := by
  intro l
  induction l with
  | nil => intro n h; simp at h
  | cons a t ih =>
    intro n h
    cases n with
    | zero => rfl
    | succ m => exact ih m (by simpa using h)

/-- C9.  In the serialized report (and the underlying state dict), the label
string "cumulative deaths" is bound to the series accumulating the
confirmed-deaths counter, and the label string "cumulative confirmed deaths"
is bound to the series accumulating the true-deaths counter: the two
death-series labels are interchanged (lines 71-72 of `simulate_v2.py`), for
every run that is serialized. -/
theorem death_series_labels_interchanged (seed : Daily) (ds : List Daily) :
    seriesByLabel (statsRun seed ds) "cumulative deaths" =
      some (cumulApp [seed.confirmedDeaths] 0 (ds.map (fun d => d.confirmedDeaths))) ∧
    seriesByLabel (statsRun seed ds) "cumulative confirmed deaths" =
      some (cumulApp [seed.deaths] 0 (ds.map (fun d => d.deaths))) := by
  constructor
  · have h1 : seriesByLabel (statsRun seed ds) "cumulative deaths" =
        some (statsRun seed ds).cumulativeConfirmedDeaths := by
      simp [seriesByLabel, CUMULATIVE_CASES_SERIES, CUMULATIVE_CONFIRMED_CASES_SERIES,
        CUMULATIVE_RECOVERIES_SERIES, CUMULATIVE_CONFIRMED_RECOVERIES_SERIES,
        CUMULATIVE_DEATHS_SERIES, CUMULATIVE_CONFIRMED_DEATHS_SERIES]
    rw [h1]
    unfold statsRun
    rw [statsGo_cumulativeConfirmedDeaths]
    rfl
  · have h2 : seriesByLabel (statsRun seed ds) "cumulative confirmed deaths" =
        some (statsRun seed ds).cumulativeDeaths := by
      simp [seriesByLabel, CUMULATIVE_CASES_SERIES, CUMULATIVE_CONFIRMED_CASES_SERIES,
        CUMULATIVE_RECOVERIES_SERIES, CUMULATIVE_CONFIRMED_RECOVERIES_SERIES,
        CUMULATIVE_DEATHS_SERIES]
    rw [h2]
    unfold statsRun
    rw [statsGo_cumulativeDeaths]
    rfl

/-- C10.  For every simulated day (index `n + 1` of the series), the
"new confirmed active cases" entry equals today's confirmed cases minus
today's confirmed recoveries minus today's TRUE deaths, while the first
difference of the "active confirmed cases" series subtracts today's
confirmed deaths; the two disagree whenever confirmed deaths differ from
true deaths. -/
theorem new_confirmed_active_uses_true_deaths (seed : Daily) (ds : List Daily) (n : ℕ)
    (hn : n < ds.length) :
    (statsRun seed ds).newConfirmedActiveCases.getD (n + 1) 0 =
      (ds.getD n default).confirmedCases - (ds.getD n default).confirmedRecoveries -
        (ds.getD n default).deaths ∧
    (statsRun seed ds).activeConfirmedCases.getD (n + 1) 0 -
        (statsRun seed ds).activeConfirmedCases.getD n 0 =
      (ds.getD n default).confirmedCases - (ds.getD n default).confirmedRecoveries -
        (ds.getD n default).confirmedDeaths ∧
    ((ds.getD n default).confirmedDeaths ≠ (ds.getD n default).deaths →
      (statsRun seed ds).newConfirmedActiveCases.getD (n + 1) 0 ≠
        (statsRun seed ds).activeConfirmedCases.getD (n + 1) 0 -
          (statsRun seed ds).activeConfirmedCases.getD n 0) := by
  have ha : (statsRun seed ds).newConfirmedActiveCases.getD (n + 1) 0 =
      (ds.getD n default).confirmedCases - (ds.getD n default).confirmedRecoveries -
        (ds.getD n default).deaths := by
    unfold statsRun
    rw [statsGo_newConfirmedActiveCases]
    have : (statsInit seed).newConfirmedActiveCases =
        [seed.confirmedCases - seed.confirmedRecoveries - seed.deaths] := rfl
    rw [this]
    rw [show ([seed.confirmedCases - seed.confirmedRecoveries - seed.deaths] ++
      ds.map (fun d => d.confirmedCases - d.confirmedRecoveries - d.deaths)).getD (n + 1) 0 =
      (ds.map (fun d => d.confirmedCases - d.confirmedRecoveries - d.deaths)).getD n 0 from rfl]
    exact getD_map_daily _ ds n hn
  have hb : (statsRun seed ds).activeConfirmedCases.getD (n + 1) 0 -
      (statsRun seed ds).activeConfirmedCases.getD n 0 =
      (ds.getD n default).confirmedCases - (ds.getD n default).confirmedRecoveries -
        (ds.getD n default).confirmedDeaths := by
    unfold statsRun
    rw [statsGo_activeConfirmedCases]
    have hlen : ((statsInit seed).activeConfirmedCases).length = 0 + 1 := rfl
    have := cumulApp_diff
      (ds.map (fun d => d.confirmedCases - d.confirmedRecoveries - d.confirmedDeaths))
      (statsInit seed).activeConfirmedCases 0 hlen n (by simpa using hn)
    simp only [Nat.zero_add] at this
    rw [Nat.add_comm 1 n] at this
    rw [this]
    exact getD_map_daily _ ds n hn
  refine ⟨ha, hb, ?_⟩
  intro hne heq
  rw [ha, hb] at heq
  apply hne
  linarith

/-- Concrete daily-counter record used by witnesses: one true death recorded,
no confirmed death. -/
def dailyW : Daily := { (default : Daily) with deaths := 1 }

/-- Witness for C10 at a concrete one-day run whose confirmed deaths (0)
differ from its true deaths (1). -/
theorem new_confirmed_active_uses_true_deaths_witness :
    0 < ([dailyW] : List Daily).length ∧
    ((statsRun default [dailyW]).newConfirmedActiveCases.getD 1 0 =
      (([dailyW] : List Daily).getD 0 default).confirmedCases -
        (([dailyW] : List Daily).getD 0 default).confirmedRecoveries -
        (([dailyW] : List Daily).getD 0 default).deaths ∧
    (statsRun default [dailyW]).activeConfirmedCases.getD 1 0 -
        (statsRun default [dailyW]).activeConfirmedCases.getD 0 0 =
      (([dailyW] : List Daily).getD 0 default).confirmedCases -
        (([dailyW] : List Daily).getD 0 default).confirmedRecoveries -
        (([dailyW] : List Daily).getD 0 default).confirmedDeaths ∧
    ((([dailyW] : List Daily).getD 0 default).confirmedDeaths ≠
        (([dailyW] : List Daily).getD 0 default).deaths →
      (statsRun default [dailyW]).newConfirmedActiveCases.getD 1 0 ≠
        (statsRun default [dailyW]).activeConfirmedCases.getD 1 0 -
          (statsRun default [dailyW]).activeConfirmedCases.getD 0 0)) :=
  ⟨by decide, new_confirmed_active_uses_true_deaths default [dailyW] 0 (by decide)⟩

/-! ### Claim C6: running maxima -/

/-- The property claimed of a tracked running maximum `m` for a series `s`:
`m` is in range, `s[m]` dominates every appended entry, and every entry
strictly before `m` is strictly smaller (ties are won by the earliest day). -/
def MaxInvP (s : List ℚ) (m : ℕ) : Prop :=
  m < s.length ∧ (∀ d, d < s.length → s.getD d 0 ≤ s.getD m 0) ∧
    (∀ d, d < m → s.getD d 0 < s.getD m 0)

theorem maxInvP_singleton (v : ℚ) : MaxInvP [v] 0 := by
  refine ⟨Nat.one_pos, ?_, ?_⟩
  · intro d hd
    have hd0 : d = 0 := by simp at hd; omega
    subst hd0
    exact le_refl _
  · intro d hd
    omega

theorem maxInv_step (s : List ℚ) (m : ℕ) (v : ℚ) (day : ℕ)
    (hlen : s.length = day + 1) (h : MaxInvP s m) :
    MaxInvP (s ++ [v]) (maxUpd (s ++ [v]) day m) := by
  obtain ⟨hm, hle, hlt⟩ := h
  have hnew : (s ++ [v]).getD (day + 1) 0 = v := by
    rw [← hlen]
    exact getD_append_self s v 0
  have hold : (s ++ [v]).getD m 0 = s.getD m 0 := getD_append_lt s [v] 0 m hm
  have hkeep : ∀ d, d < s.length → (s ++ [v]).getD d 0 = s.getD d 0 :=
    fun d hd => getD_append_lt s [v] 0 d hd
  have hlen2 : (s ++ [v]).length = day + 2 := by simp [hlen]
  unfold maxUpd
  rw [hnew, hold]
  by_cases hc : v > s.getD m 0
  · rw [if_pos hc]
    refine ⟨by omega, ?_, ?_⟩
    · intro d hd
      rw [hnew]
      rw [hlen2] at hd
      rcases Nat.lt_or_ge d (day + 1) with h2 | h2
      · rw [hkeep d (by omega)]
        exact le_of_lt (lt_of_le_of_lt (hle d (by omega)) hc)
      · have : d = day + 1 := by omega
        subst this
        rw [hnew]
    · intro d hd
      rw [hnew, hkeep d (by omega)]
      exact lt_of_le_of_lt (hle d (by omega)) hc
  · rw [if_neg hc]
    refine ⟨by omega, ?_, ?_⟩
    · intro d hd
      rw [hold]
      rw [hlen2] at hd
      rcases Nat.lt_or_ge d (day + 1) with h2 | h2
      · rw [hkeep d (by omega)]
        exact hle d (by omega)
      · have : d = day + 1 := by omega
        subst this
        rw [hnew]
        exact le_of_not_lt hc
    · intro d hd
      rw [hold, hkeep d (by omega)]
      exact hlt d hd

/-- Length bookkeeping for the six series that carry a running maximum. -/
def LenMax (st : V2Stats) (day : ℕ) : Prop :=
  st.activeCases.length = day + 1 ∧ st.activeConfirmedCases.length = day + 1 ∧
  st.activeHospitalizedCases.length = day + 1 ∧ st.activeICUCases.length = day + 1 ∧
  st.newCases.length = day + 1 ∧ st.newConfirmedCases.length = day + 1

/-- The claimed property for all six tracked (series, day-of-maximum) pairs
of `run_simulation`. -/
def MaxSix (st : V2Stats) : Prop :=
  MaxInvP st.activeCases st.maxActiveCases ∧
  MaxInvP st.activeConfirmedCases st.maxActiveConfirmedCases ∧
  MaxInvP st.activeHospitalizedCases st.maxActiveHospitalizations ∧
  MaxInvP st.activeICUCases st.maxActiveICU ∧
  MaxInvP st.newCases st.maxNewDailyCases ∧
  MaxInvP st.newConfirmedCases st.maxNewDailyConfirmedCases

theorem maxSix_step (st : V2Stats) (day : ℕ) (d : Daily)
    (hlen : LenMax st day) (h : MaxSix st) :
    LenMax (statsStep st day d) (day + 1) ∧ MaxSix (statsStep st day d) := by
  obtain ⟨l1, l2, l3, l4, l5, l6⟩ := hlen
  obtain ⟨m1, m2, m3, m4, m5, m6⟩ := h
  constructor
  · refine ⟨?_, ?_, ?_, ?_, ?_, ?_⟩ <;>
      simp [statsStep, appendIdx, l1, l2, l3, l4, l5, l6]
  · exact ⟨maxInv_step _ _ _ _ l1 m1, maxInv_step _ _ _ _ l2 m2,
      maxInv_step _ _ _ _ l3 m3, maxInv_step _ _ _ _ l4 m4,
      maxInv_step _ _ _ _ l5 m5, maxInv_step _ _ _ _ l6 m6⟩

theorem maxSix_go (ds : List Daily) : ∀ (st : V2Stats) (day : ℕ),
    LenMax st day → MaxSix st →
      LenMax (statsGo st day ds) (day + ds.length) ∧ MaxSix (statsGo st day ds) := by
  induction ds with
  | nil => intro st day h1 h2; simpa using ⟨h1, h2⟩
  | cons d rest ih =>
    intro st day h1 h2
    obtain ⟨s1, s2⟩ := maxSix_step st day d h1 h2
    have := ih (statsStep st day d) (day + 1) s1 s2
    simpa [statsGo, Nat.add_assoc, Nat.add_comm 1 rest.length] using this

/-- C6.  For each of the six tracked running maxima of `run_simulation`
(active cases, active confirmed cases, active hospitalizations, active ICU,
new daily cases, new daily confirmed cases), the recorded day `m` satisfies
`series[m] >= series[d]` for every day `d` appended so far, and
`series[d] < series[m]` for every `d < m`: the update uses strict
greater-than, so ties are won by the earliest day. -/
theorem running_maxima_invariant (seed : Daily) (ds : List Daily) :
    MaxSix (statsRun seed ds) := by
  have hinit : LenMax (statsInit seed) 0 := ⟨rfl, rfl, rfl, rfl, rfl, rfl⟩
  have minit : MaxSix (statsInit seed) :=
    ⟨maxInvP_singleton _, maxInvP_singleton _, maxInvP_singleton _,
      maxInvP_singleton _, maxInvP_singleton _, maxInvP_singleton _⟩
  exact (maxSix_go ds (statsInit seed) 0 hinit minit).2

/-- Witness for C6: on a concrete two-day run, the entry at day 1 of the
active-cases series is dominated by the entry at the recorded
day-of-maximum. -/
theorem running_maxima_invariant_witness :
    1 < (statsRun default [dailyW]).activeCases.length ∧
    (statsRun default [dailyW]).activeCases.getD 1 0 ≤
      (statsRun default [dailyW]).activeCases.getD
        (statsRun default [dailyW]).maxActiveCases 0 :=
  ⟨by decide, (running_maxima_invariant default [dailyW]).1.2.1 1 (by decide)⟩

/-! ### Claims C3 and C4: the two contact passes -/

/-- The susceptible-initiated loop can record at most one new case: it breaks
as soon as it infects. -/
theorem susLoop_cases_le (T : HState → StateDef) (rng : Rng) (p : ℚ) :
    ∀ (n : ℕ) (people : List Person) (i : ℕ) (ctr : DayCtr) (c : RC),
      (susLoop T rng p n people i ctr c).2.1.cases ≤ ctr.cases + 1 := by
  intro n
  induction n with
  | zero => intro people i ctr c; exact Nat.le_succ _
  | succ m ih =>
    intro people i ctr c
    simp only [susLoop, randBelow, randFloat]
    by_cases h1 : (people.getD (rng.ints c.ii % ctr.pop) default).state = contagious
    · rw [if_pos h1]
      by_cases h2 : rng.floats c.fi < p
      · rw [if_pos h2]
      · rw [if_neg h2]
        exact ih people i ctr _
    · rw [if_neg h1]
      exact ih people i ctr _

/-- The contagious-initiated loop never breaks: it consumes exactly one
contact sample (one integer draw) per iteration. -/
theorem contagLoop_ii (T : HState → StateDef) (rng : Rng) (p : ℚ) :
    ∀ (n : ℕ) (people : List Person) (i : ℕ) (ctr : DayCtr) (c : RC),
      ((contagLoop T rng p n people i ctr c).2.2).ii = c.ii + n := by
  intro n
  induction n with
  | zero => intro people i ctr c; rfl
  | succ m ih =>
    intro people i ctr c
    simp only [contagLoop, randBelow, randFloat]
    by_cases h1 : ((T (people.getD (rng.ints c.ii % ctr.pop) default).state).canBeInfected) = true
    · rw [if_pos h1]
      by_cases h2 : rng.floats c.fi < p
      · rw [if_pos h2, ih]
        show c.ii + 1 + m = c.ii + (m + 1)
        omega
      · rw [if_neg h2, ih]
        show c.ii + 1 + m = c.ii + (m + 1)
        omega
    · rw [if_neg h1, ih]
      show c.ii + 1 + m = c.ii + (m + 1)
      omega

/-- The susceptible-initiated loop consumes at most `n` contact samples (it
may break early). -/
theorem susLoop_ii_le (T : HState → StateDef) (rng : Rng) (p : ℚ) :
    ∀ (n : ℕ) (people : List Person) (i : ℕ) (ctr : DayCtr) (c : RC),
      ((susLoop T rng p n people i ctr c).2.2).ii ≤ c.ii + n := by
  intro n
  induction n with
  | zero => intro people i ctr c; exact Nat.le_refl _
  | succ m ih =>
    intro people i ctr c
    simp only [susLoop, randBelow, randFloat]
    by_cases h1 : (people.getD (rng.ints c.ii % ctr.pop) default).state = contagious
    · rw [if_pos h1]
      by_cases h2 : rng.floats c.fi < p
      · rw [if_pos h2]
        show c.ii + 1 ≤ c.ii + (m + 1)
        omega
      · rw [if_neg h2]
        have h3 : (susLoop T rng p m people i ctr ⟨c.fi + 1, c.ii + 1⟩).2.2.ii ≤
            c.ii + 1 + m := ih people i ctr ⟨c.fi + 1, c.ii + 1⟩
        omega
    · rw [if_neg h1]
      have h3 : (susLoop T rng p m people i ctr ⟨c.fi, c.ii + 1⟩).2.2.ii ≤
          c.ii + 1 + m := ih people i ctr ⟨c.fi, c.ii + 1⟩
      omega

/-- The susceptible-initiated loop, when contact `j` is the first sampled
contact in the contagious state and the float drawn there is below the
transmission probability: the person at `i` becomes infected with days 1,
one case is recorded, and the loop stops having consumed exactly `j + 1`
samples and one float. -/
theorem susLoop_first (T : HState → StateDef) (rng : Rng) (p : ℚ) :
    ∀ (j n : ℕ) (people : List Person) (i : ℕ) (ctr : DayCtr) (c : RC),
      j < n →
      (∀ j2, j2 < j →
        (people.getD (rng.ints (c.ii + j2) % ctr.pop) default).state ≠ contagious) →
      (people.getD (rng.ints (c.ii + j) % ctr.pop) default).state = contagious →
      rng.floats c.fi < p →
      susLoop T rng p n people i ctr c =
        (people.set i { people.getD i default with state := infected, days := 1 },
          { ctr with cases := ctr.cases + 1 }, ⟨c.fi + 1, c.ii + j + 1⟩) := by
  intro j
  induction j with
  | zero =>
    intro n people i ctr c hn hfirst hcont hdraw
    cases n with
    | zero => omega
    | succ m =>
      have hcont0 : (people.getD (rng.ints c.ii % ctr.pop) default).state = contagious := by
        simpa using hcont
      simp only [susLoop, randBelow, randFloat]
      rw [if_pos hcont0, if_pos hdraw]
  | succ jm ih =>
    intro n people i ctr c hn hfirst hcont hdraw
    cases n with
    | zero => omega
    | succ m =>
      have hnot : ¬ (people.getD (rng.ints c.ii % ctr.pop) default).state = contagious := by
        have := hfirst 0 (Nat.succ_pos jm)
        simpa using this
      simp only [susLoop, randBelow, randFloat]
      rw [if_neg hnot]
      have hstep := ih m people i ctr ⟨c.fi, c.ii + 1⟩ (by omega)
        (fun j2 hj2 => by
          have h := hfirst (j2 + 1) (by omega)
          rw [show c.ii + 1 + j2 = c.ii + (j2 + 1) from by omega]
          exact h)
        (by
          rw [show c.ii + 1 + jm = c.ii + (jm + 1) from by omega]
          exact hcont)
        hdraw
      rw [show c.ii + (jm + 1) + 1 = c.ii + 1 + jm + 1 from by omega]
      exact hstep

/-- C3.  In the susceptible-initiated contact pass, for a susceptible
individual the uniform transmission draw happens on the first sampled
contact whose state is contagious (the first float consumed); if it is below
the transmission probability the individual becomes infected with
days-in-state reset to 1, a new case is recorded and sampling stops there
(the integer cursor advances only `j + 1` positions); and across the whole
loop at most one infection is recorded for the individual per day. -/
theorem susceptible_first_contact_infection (T : HState → StateDef) (rng : Rng)
    (p : ℚ) (contacts : ℕ) (people : List Person) (i : ℕ) (ctr : DayCtr) (c : RC)
    (j : ℕ)
    (hsus : (T (people.getD i default).state).canBeInfected = true)
    (hj : j < contacts / 2)
    (hfirst : ∀ j2, j2 < j →
      (people.getD (rng.ints (c.ii + j2) % ctr.pop) default).state ≠ contagious)
    (hcont : (people.getD (rng.ints (c.ii + j) % ctr.pop) default).state = contagious)
    (hdraw : rng.floats c.fi < p) :
    evaluate_contacts T rng p contacts people i ctr c =
      (people.set i { people.getD i default with state := infected, days := 1 },
        { ctr with cases := ctr.cases + 1 }, ⟨c.fi + 1, c.ii + j + 1⟩) ∧
    (∀ (n : ℕ) (c2 : RC), (susLoop T rng p n people i ctr c2).2.1.cases ≤ ctr.cases + 1) := by
  constructor
  · show (if (T (people.getD i default).state).canBeInfected = true then _ else _) = _
    rw [if_pos hsus]
    exact susLoop_first T rng p j (contacts / 2) people i ctr c hj hfirst hcont hdraw
  · intro n c2
    exact susLoop_cases_le T rng p n people i ctr c2

/-- Concrete random source for the C3 witness: every contact sample lands on
index 1, every float is 0. -/
def rngW3 : Rng := ⟨fun _ => 0, fun _ => 1⟩

/-- Concrete population for the C3 witness. -/
def peopleW3 : List Person := [⟨0, well, 1⟩, ⟨1, contagious, 1⟩]

/-- Concrete day counters for the C3 witness. -/
def ctrW3 : DayCtr := ⟨0, 0, 0, 2⟩

/-- Witness for C3 at a concrete susceptible person whose first sampled
contact is contagious and whose draw succeeds. -/
theorem susceptible_first_contact_infection_witness :
    (HEALTH_STATES (peopleW3.getD 0 default).state).canBeInfected = true ∧
    0 < 2 / 2 ∧
    (peopleW3.getD (rngW3.ints (RC.mk 0 0).ii % ctrW3.pop) default).state = contagious ∧
    rngW3.floats (RC.mk 0 0).fi < mkRat 1 2 ∧
    evaluate_contacts HEALTH_STATES rngW3 (mkRat 1 2) 2 peopleW3 0 ctrW3 ⟨0, 0⟩ =
      (peopleW3.set 0 { peopleW3.getD 0 default with state := infected, days := 1 },
        { ctrW3 with cases := ctrW3.cases + 1 }, ⟨1, 1⟩) := by
  refine ⟨by decide, by decide, by decide, by decide, ?_⟩
  have h := (susceptible_first_contact_infection HEALTH_STATES rngW3 (mkRat 1 2) 2
    peopleW3 0 ctrW3 ⟨0, 0⟩ 0 (by decide) (by decide)
    (fun j2 hj2 => absurd hj2 (Nat.not_lt_zero j2)) (by decide) (by decide)).1
  exact h

/-- Concrete random source for the C4 witness: contact samples land on
indices 1 then 2, every float is 0. -/
def rngW4 : Rng := ⟨fun _ => 0, fun n => n + 1⟩

/-- Concrete population for the C4 witness: one contagious person and two
susceptible contacts. -/
def peopleW4 : List Person := [⟨0, contagious, 1⟩, ⟨1, well, 1⟩, ⟨2, well, 1⟩]

/-- Concrete day counters for the C4 witness. -/
def ctrW4 : DayCtr := ⟨0, 0, 0, 3⟩

/-- C4.  Both contact branches sample `daily_contacts / 2` contacts
(integer division) from the living population: the contagious-initiated pass
consumes exactly `contacts / 2` samples (it never stops early) while the
susceptible-initiated pass consumes at most that many and records at most
one infection; and on a concrete day one contagious individual infects two
distinct sampled contacts, so the contagious-initiated pass may infect
multiple contacts in the same day. -/
theorem contact_passes_half_and_asymmetry (T : HState → StateDef) (rng : Rng)
    (p : ℚ) (contacts : ℕ) (people : List Person) (i : ℕ) (ctr : DayCtr) (c : RC) :
    ((people.getD i default).state = contagious →
      (T (people.getD i default).state).canBeInfected = false →
      ((evaluate_contacts T rng p contacts people i ctr c).2.2).ii = c.ii + contacts / 2) ∧
    ((T (people.getD i default).state).canBeInfected = true →
      ((evaluate_contacts T rng p contacts people i ctr c).2.2).ii ≤ c.ii + contacts / 2 ∧
      (evaluate_contacts T rng p contacts people i ctr c).2.1.cases ≤ ctr.cases + 1) ∧
    ((evaluate_contacts HEALTH_STATES rngW4 (mkRat 1 2) 4 peopleW4 0 ctrW4
        ⟨0, 0⟩).2.1.cases = 2 ∧
      ((evaluate_contacts HEALTH_STATES rngW4 (mkRat 1 2) 4 peopleW4 0 ctrW4
        ⟨0, 0⟩).1.getD 1 default).state = infected ∧
      ((evaluate_contacts HEALTH_STATES rngW4 (mkRat 1 2) 4 peopleW4 0 ctrW4
        ⟨0, 0⟩).1.getD 2 default).state = infected) := by
  refine ⟨?_, ?_, by decide, by decide, by decide⟩
  · intro h1 h2
    have h2n : ¬ ((T (people.getD i default).state).canBeInfected = true) := by
      rw [h2]
      exact Bool.false_ne_true
    simp only [evaluate_contacts]
    rw [if_neg h2n, if_pos h1]
    exact contagLoop_ii T rng p (contacts / 2) people i ctr c
  · intro h
    refine ⟨?_, ?_⟩
    · simp only [evaluate_contacts]
      rw [if_pos h]
      exact susLoop_ii_le T rng p (contacts / 2) people i ctr c
    · simp only [evaluate_contacts]
      rw [if_pos h]
      exact susLoop_cases_le T rng p (contacts / 2) people i ctr c

/-- Witness for C4: the contagious person of the concrete population
consumes exactly `4 / 2` contact samples. -/
theorem contact_passes_half_and_asymmetry_witness :
    (peopleW4.getD 0 default).state = contagious ∧
    (HEALTH_STATES (peopleW4.getD 0 default).state).canBeInfected = false ∧
    ((evaluate_contacts HEALTH_STATES rngW4 (mkRat 1 2) 4 peopleW4 0 ctrW4
      ⟨0, 0⟩).2.2).ii = (RC.mk 0 0).ii + 4 / 2 :=
  ⟨by decide, by decide,
    (contact_passes_half_and_asymmetry HEALTH_STATES rngW4 (mkRat 1 2) 4 peopleW4 0 ctrW4
      ⟨0, 0⟩).1 (by decide) (by decide)⟩

/-! ### Claim C5: determinism -/

/-- C5.  The embedded simulation is a pure function of the configuration and
of the random streams derived from the seed (`random.seed` fixes the one
shared random source): two runs with the same seed and the same
configuration produce identical output (every tracked series included),
element for element. -/
theorem run_deterministic_in_seed (seedToRng : ℕ → Rng) (cfg : SimConfig)
    (s1 s2 : ℕ) (h : s1 = s2) :
    runEx2 cfg (seedToRng s1) = runEx2 cfg (seedToRng s2) := by
  rw [h]

/-- Concrete random source for the C5 witness. -/
def rngW5 : Rng := ⟨fun _ => 0, fun _ => 0⟩

/-- Concrete configuration for the C5 witness. -/
def cfgW5 : SimConfig := ⟨HEALTH_STATES, 2, 1, 1, 0, 0⟩

/-- Witness for C5 at seed 42. -/
theorem run_deterministic_in_seed_witness :
    (42 : ℕ) = 42 ∧
    runEx2 cfgW5 ((fun _ : ℕ => rngW5) 42) = runEx2 cfgW5 ((fun _ : ℕ => rngW5) 42) :=
  ⟨rfl, run_deterministic_in_seed (fun _ : ℕ => rngW5) cfgW5 42 42 rfl⟩

/-! ### Claim C2: the day-0 seeding loop of `run_simulation`

`run_simulation` seeds with
`while ss[INITIAL_INFECTION] > ss[DAILY_CONFIRMED_CASES]: ss[SET_INFECTED](...)`
(`simulate_v2.py` lines 207-209).  The callback bound to `SET_INFECTED`
lives in a collaborator module that is not under `src/`. -/

/-- The state threaded through the seeding loop. -/
structure SeedSt where
  people : List Person
  cases : ℕ
  confirmed : ℚ
  c : RC

/-- Modelled from the spec: the infection setter bound to `SET_INFECTED`
(its definition is missing from `src/`).  Per §4.5 of the spec it forces the
selected individual into the "contagious" (initially infectious) state; per
the spec's open question it increments the *true*-case counter, the
confirmed counter receiving the testing-probability scaling of §4.5 item 7
(confirmed figures are true counts multiplied by the testing probability). -/
def setInfected (tp : ℚ) (st : SeedSt) (k : ℕ) : SeedSt :=
  { st with
    people := st.people.set k { st.people.getD k default with state := contagious },
    cases := st.cases + 1,
    confirmed := st.confirmed + tp }

/-- The day-0 seeding loop (`simulate_v2.py` lines 207-209): while the
configured initial-infection count exceeds today's *confirmed*-case counter,
select a random individual and apply the infection setter.  `fuel` bounds
the unrolling of the Python `while` loop. -/
def seedLoop (rng : Rng) (target tp : ℚ) (pop : ℕ) : ℕ → SeedSt → SeedSt
  | 0, st => st
  | fuel + 1, st =>
    if target > st.confirmed then
      let (k, c1) := randBelow rng st.c pop
      seedLoop rng target tp pop fuel (setInfected tp { st with c := c1 } k)
    else st

theorem seedLoop_step (rng : Rng) (target tp : ℚ) (pop fuel : ℕ) (st : SeedSt)
    (h : target > st.confirmed) :
    seedLoop rng target tp pop (fuel + 1) st =
      seedLoop rng target tp pop fuel
        (setInfected tp { st with c := ⟨st.c.fi, st.c.ii + 1⟩ } (rng.ints st.c.ii % pop)) := by
  simp only [seedLoop, randBelow]
  rw [if_pos h]

theorem seedLoop_exit (rng : Rng) (target tp : ℚ) (pop fuel : ℕ) (st : SeedSt)
    (h : ¬ target > st.confirmed) :
    seedLoop rng target tp pop (fuel + 1) st = st := by
  simp only [seedLoop]
  rw [if_neg h]

/-- Concrete random source for the C2 counterexample. -/
def rngW2 : Rng := ⟨fun _ => 0, fun _ => 0⟩

/-- Concrete starting state for the C2 counterexample: two well people, zero
counters. -/
def seedSt0 : SeedSt := ⟨[⟨0, well, 1⟩, ⟨1, well, 1⟩], 0, 0, ⟨0, 0⟩⟩

/-- Counterexample to C2 as stated: with testing probability 1/2 and a
configured initial-infection count of 1, the seeding loop does not terminate
when the number of infected individuals recorded reaches 1 — it records 2
individuals before the confirmed-case counter reaches the target. -/
theorem seeding_overshoot_cex :
    (seedLoop rngW2 1 (mkRat 1 2) 2 5 seedSt0).cases = 2 ∧ (2 : ℕ) ≠ 1 := by
  have hhalf : (mkRat 1 2 : ℚ) = 1 / 2 := by
    rw [Rat.mkRat_eq_div]
    norm_num
  constructor
  · rw [show (5 : ℕ) = 4 + 1 from rfl,
      seedLoop_step rngW2 1 (mkRat 1 2) 2 4 seedSt0 (by norm_num [seedSt0])]
    rw [show (4 : ℕ) = 3 + 1 from rfl,
      seedLoop_step rngW2 1 (mkRat 1 2) 2 3 _
        (by norm_num [setInfected, seedSt0, hhalf])]
    rw [show (3 : ℕ) = 2 + 1 from rfl,
      seedLoop_exit rngW2 1 (mkRat 1 2) 2 2 _
        (by norm_num [setInfected, seedSt0, hhalf])]
    norm_num [setInfected, seedSt0]
  · norm_num

theorem seedLoop_tp_one (rng : Rng) (pop t : ℕ) :
    ∀ (fuel k : ℕ) (people : List Person) (c : RC) (q : ℚ), q = (k : ℚ) →
      k ≤ t → t - k ≤ fuel →
      (seedLoop rng (t : ℚ) 1 pop fuel ⟨people, k, q, c⟩).cases = t ∧
      (seedLoop rng (t : ℚ) 1 pop fuel ⟨people, k, q, c⟩).confirmed = (t : ℚ) := by
  intro fuel
  induction fuel with
  | zero =>
    intro k people c q hq hk hfuel
    have hkt : k = t := by omega
    subst hkt
    exact ⟨rfl, hq⟩
  | succ m ih =>
    intro k people c q hq hk hfuel
    by_cases hlt : k < t
    · have hcond : (t : ℚ) > q := by
        rw [hq]
        exact_mod_cast hlt
      rw [seedLoop_step rng (t : ℚ) 1 pop m ⟨people, k, q, c⟩ hcond]
      exact ih (k + 1) _ _ (q + 1) (by rw [hq]; push_cast; ring) (by omega) (by omega)
    · have hkt : k = t := by omega
      subst hkt
      have hcond : ¬ (k : ℚ) > q := by
        rw [hq]
        exact lt_irrefl _
      rw [seedLoop_exit rng (k : ℚ) 1 pop m ⟨people, k, q, c⟩ hcond]
      exact ⟨rfl, hq⟩

/-- C2, amended.  The seeding loop iterates exactly while the configured
initial-infection count exceeds the *confirmed*-case counter (one individual
forced contagious and one true case per iteration, the confirmed counter
growing by the testing probability); therefore the number of individuals
recorded equals the configured count when the testing probability is 1.0
(given fuel covering the loop), while for testing probability 1/2 it
overshoots (see the counterexample). -/
theorem seeding_terminates_on_confirmed (rng : Rng) (pop t fuel : ℕ)
    (people : List Person) (c : RC) (hf : t ≤ fuel) :
    (seedLoop rng (t : ℚ) 1 pop fuel ⟨people, 0, 0, c⟩).cases = t ∧
    (seedLoop rng (t : ℚ) 1 pop fuel ⟨people, 0, 0, c⟩).confirmed = (t : ℚ) ∧
    (∀ (tp : ℚ) (st : SeedSt) (f : ℕ), ¬ (t : ℚ) > st.confirmed →
      seedLoop rng (t : ℚ) tp pop (f + 1) st = st) ∧
    (∀ (tp : ℚ) (st : SeedSt) (f : ℕ), (t : ℚ) > st.confirmed →
      seedLoop rng (t : ℚ) tp pop (f + 1) st =
        seedLoop rng (t : ℚ) tp pop f
          (setInfected tp { st with c := ⟨st.c.fi, st.c.ii + 1⟩ }
            (rng.ints st.c.ii % pop))) := by
  have h := seedLoop_tp_one rng pop t fuel 0 people c 0 (by norm_num) (by omega) (by omega)
  exact ⟨h.1, h.2,
    fun tp st f hst => seedLoop_exit rng (t : ℚ) tp pop f st hst,
    fun tp st f hst => seedLoop_step rng (t : ℚ) tp pop f st hst⟩

/-- Witness for C2 (amended) at a concrete two-person configuration with
target 2 and testing probability 1. -/
theorem seeding_terminates_on_confirmed_witness :
    (2 : ℕ) ≤ 3 ∧
    (seedLoop rngW2 ((2 : ℕ) : ℚ) 1 2 3 ⟨seedSt0.people, 0, 0, ⟨0, 0⟩⟩).cases = 2 :=
  ⟨by omega,
    (seeding_terminates_on_confirmed rngW2 2 2 3 seedSt0.people ⟨0, 0⟩ (by omega)).1⟩

/-! ### Claim C8: unrecognized phase-activation conditions -/

/-- A phase-activation condition record: a `type` string plus the numeric
fields the recognized kinds read (`count`, `days`, `day`). -/
structure Condition where
  ctype : String
  count : ℚ
  days : ℤ
  day : ℤ

/-- Transcription of `simulate_v2.test_condition` (lines 370-391): dispatch
on the condition's type string; an unrecognized type prints a report and
leaves `advance` as `False`.  The second component collects the console
report emitted by the call. -/
def test_condition (st : V2Stats) (phaseStartDay : ℤ) (cond : Condition) (day : ℕ) :
    Bool × List String :=
  if cond.ctype = "cumulative cases exceeds" then
    (decide (st.cumulativeCases.getD day 0 ≥ cond.count), [])
  else if cond.ctype = "daily new confirmed above" then
    (decide (st.newConfirmedCases.getD day 0 ≥ cond.count), [])
  else if cond.ctype = "daily new confirmed below" then
    (decide (st.newConfirmedCases.getD day 0 ≤ cond.count), [])
  else if cond.ctype = "cumulative confirmed cases exceeds" then
    (decide (st.cumulativeConfirmedCases.getD day 0 ≥ cond.count), [])
  else if cond.ctype = "days after max active" then
    (decide ((day : ℤ) - st.maxActiveCases > cond.days), [])
  else if cond.ctype = "days after confirmed max active" then
    (decide ((day : ℤ) - st.maxActiveConfirmedCases > cond.days), [])
  else if cond.ctype = "days in phase" then
    (decide ((day : ℤ) - phaseStartDay > cond.days), [])
  else if cond.ctype = "day in simulation" then
    (decide ((day : ℤ) = cond.day), [])
  else
    (false, ["Unrecognized condition: " ++ cond.ctype])

/-- Modelled from the spec: the daily phase evaluation driver
(`phases.daily_phase_evaluation`; the `phases` module is absent from
`src/`): exactly one condition — the next not-yet-activated phase's — is
checked once per day, and on satisfaction the phase becomes current and is
no longer checked.  The result after a number of days is whether the phase
activated, together with every console report emitted so far. -/
def phaseEvalRun (st : V2Stats) (phaseStartDay : ℤ) (cond : Condition) :
    ℕ → Bool × List String
  | 0 => (false, [])
  | days + 1 =>
    let r := phaseEvalRun st phaseStartDay cond days
    if r.1 then r
    else
      let t := test_condition st phaseStartDay cond days
      (t.1, r.2 ++ t.2)

/-- A condition with an unrecognized type string, for the C8 counterexample
and witness. -/
def condW : Condition := ⟨"lockdown trigger", 0, 0, 0⟩

/-- Counterexample to C8 as stated: over a two-day run the unrecognized
condition is reported on both days (two reports, not one). -/
theorem unrecognized_condition_reported_each_day_cex :
    (phaseEvalRun (statsInit default) 0 condW 2).2.length = 2 ∧ (2 : ℕ) ≠ 1 ∧
    (phaseEvalRun (statsInit default) 0 condW 2).1 = false := by
  refine ⟨?_, by omega, ?_⟩ <;> rfl

/-- C8, amended.  When a phase activation condition has an unrecognized
condition kind, every evaluation returns `False` and emits one report (so
over a run the condition is reported once per day it is checked, not once in
total), the phase never activates, and the evaluator returns normally so the
run continues without aborting. -/
theorem unrecognized_condition_false_and_logged (st : V2Stats) (psd : ℤ)
    (cond : Condition)
    (h1 : cond.ctype ≠ "cumulative cases exceeds")
    (h2 : cond.ctype ≠ "daily new confirmed above")
    (h3 : cond.ctype ≠ "daily new confirmed below")
    (h4 : cond.ctype ≠ "cumulative confirmed cases exceeds")
    (h5 : cond.ctype ≠ "days after max active")
    (h6 : cond.ctype ≠ "days after confirmed max active")
    (h7 : cond.ctype ≠ "days in phase")
    (h8 : cond.ctype ≠ "day in simulation") :
    (∀ day, test_condition st psd cond day =
      (false, ["Unrecognized condition: " ++ cond.ctype])) ∧
    (∀ days, (phaseEvalRun st psd cond days).1 = false ∧
      (phaseEvalRun st psd cond days).2 =
        List.replicate days ("Unrecognized condition: " ++ cond.ctype)) := by
  have ht : ∀ day, test_condition st psd cond day =
      (false, ["Unrecognized condition: " ++ cond.ctype]) := by
    intro day
    unfold test_condition
    rw [if_neg h1, if_neg h2, if_neg h3, if_neg h4, if_neg h5, if_neg h6,
      if_neg h7, if_neg h8]
  refine ⟨ht, ?_⟩
  intro days
  induction days with
  | zero => exact ⟨rfl, rfl⟩
  | succ m ih =>
    constructor
    · simp only [phaseEvalRun, ih.1, if_neg Bool.false_ne_true, ht m]
    · simp only [phaseEvalRun, ih.1, if_neg Bool.false_ne_true, ht m, ih.2]
      exact (List.replicate_succ' _ _).symm

/-- Witness for C8 (amended) at the concrete unrecognized condition over a
three-day run. -/
theorem unrecognized_condition_false_and_logged_witness :
    condW.ctype ≠ "cumulative cases exceeds" ∧
    (∀ days, (phaseEvalRun (statsInit default) 0 condW days).1 = false ∧
      (phaseEvalRun (statsInit default) 0 condW days).2 =
        List.replicate days ("Unrecognized condition: " ++ condW.ctype)) :=
  ⟨by decide,
    (unrecognized_condition_false_and_logged (statsInit default) 0 condW
      (by decide) (by decide) (by decide) (by decide) (by decide) (by decide)
      (by decide) (by decide)).2⟩

/-! ### Claim C7: Scenario C (contagious death probability 1.0) -/

/-- The `exercise_2.py` health-state table with the contagious death rate
raised to 1.0 (Scenario C of the spec). -/
def scenCStates : HState → StateDef
  | .contagious => ⟨4, false, .recovering, 1⟩
  | s => HEALTH_STATES s

/-- The states that remain reachable in Scenario C: nobody ever reaches
`recovering` or `immune`. -/
def okState (s : HState) : Prop := s = well ∨ s = infected ∨ s = contagious

/-- Every member of the population is in a Scenario C reachable state. -/
def okStates (ps : List Person) : Prop := ∀ q ∈ ps, okState q.state

/-- Every entry of an integer series is zero. -/
def zeroListZ (l : List ℤ) : Prop := ∀ x ∈ l, x = 0

theorem zeroListZ_getD : ∀ (l : List ℤ), zeroListZ l → ∀ n, l.getD n 0 = 0 := by
  intro l
  induction l with
  | nil => intro _ n; cases n <;> rfl
  | cons a t ih =>
    intro h n
    cases n with
    | zero => exact h a (List.mem_cons_self a t)
    | succ m => exact ih (fun x hx => h x (List.mem_cons_of_mem a hx)) m

theorem evalHealth_noprogress (T : HState → StateDef) (rng : Rng) (q : Person)
    (ctr : DayCtr) (c : RC)
    (h : ¬ (0 < (T q.state).daysAtState ∧
      (T q.state).daysAtState < ((q.days + 1 : ℕ) : ℤ))) :
    evalHealth T rng q ctr c = (some { q with days := q.days + 1 }, ctr, c) := by
  simp only [evalHealth]
  rw [if_neg h]

theorem evalHealth_dies (T : HState → StateDef) (rng : Rng) (q : Person)
    (ctr : DayCtr) (c : RC)
    (hcond : 0 < (T q.state).daysAtState ∧
      (T q.state).daysAtState < ((q.days + 1 : ℕ) : ℤ))
    (hrate : (T q.state).deathRate > 0)
    (hdraw : rng.floats c.fi < (T q.state).deathRate) :
    evalHealth T rng q ctr c =
      (none, { ctr with deaths := ctr.deaths + 1, pop := ctr.pop - 1 },
        ⟨c.fi + 1, c.ii⟩) := by
  simp only [evalHealth, randFloat]
  rw [if_pos hcond, if_pos hrate, if_pos hdraw]

theorem evalHealth_advances (T : HState → StateDef) (rng : Rng) (q : Person)
    (ctr : DayCtr) (c : RC)
    (hcond : 0 < (T q.state).daysAtState ∧
      (T q.state).daysAtState < ((q.days + 1 : ℕ) : ℤ))
    (hrate : ¬ (T q.state).deathRate > 0) :
    evalHealth T rng q ctr c = advancePerson T { q with days := q.days + 1 } ctr c := by
  simp only [evalHealth]
  rw [if_pos hcond, if_neg hrate]

theorem evalHealth_scenC_ok (rng : Rng) (hv : validRng rng) (q : Person)
    (ctr : DayCtr) (c : RC) (hq : okState q.state) :
    (∀ q2, (evalHealth scenCStates rng q ctr c).1 = some q2 → okState q2.state) ∧
    (evalHealth scenCStates rng q ctr c).2.1.recoveries = ctr.recoveries := by
  rcases hq with h | h | h
  · -- well: an indefinite state, no transition
    have hred := evalHealth_noprogress scenCStates rng q ctr c (by
      rw [h]
      norm_num [scenCStates, HEALTH_STATES])
    constructor
    · intro q2 hq2
      have h1 : (evalHealth scenCStates rng q ctr c).1 =
          some { q with days := q.days + 1 } := by rw [hred]
      rw [h1] at hq2
      injection hq2 with h2
      rw [← h2]
      exact Or.inl h
    · rw [hred]
  · -- infected: either not yet elapsed, or advances to contagious
    by_cases helapsed : (2 : ℤ) < ((q.days + 1 : ℕ) : ℤ)
    · have hadv : advancePerson scenCStates { q with days := q.days + 1 } ctr c =
          (some { id := q.id, state := contagious, days := 1 }, ctr, c) := by
        simp [advancePerson, h, scenCStates, HEALTH_STATES]
      have hred := evalHealth_advances scenCStates rng q ctr c (by
        rw [h]
        norm_num [scenCStates, HEALTH_STATES]
        exact helapsed) (by
        rw [h]
        norm_num [scenCStates, HEALTH_STATES])
      rw [hred, hadv]
      constructor
      · intro q2 hq2
        injection hq2 with h2
        rw [← h2]
        exact Or.inr (Or.inr rfl)
      · rfl
    · have hred := evalHealth_noprogress scenCStates rng q ctr c (by
        rw [h]
        norm_num [scenCStates, HEALTH_STATES]
        omega)
      rw [hred]
      constructor
      · intro q2 hq2
        injection hq2 with h2
        rw [← h2]
        exact Or.inr (Or.inl h)
      · rfl
  · -- contagious: dies when elapsed (death rate 1, draw < 1), else waits
    by_cases helapsed : (4 : ℤ) < ((q.days + 1 : ℕ) : ℤ)
    · have hred := evalHealth_dies scenCStates rng q ctr c (by
        rw [h]
        norm_num [scenCStates]
        exact helapsed) (by
        rw [h]
        norm_num [scenCStates]) (by
        rw [h]
        show rng.floats c.fi < (1 : ℚ)
        exact (hv c.fi).2)
      rw [hred]
      constructor
      · intro q2 hq2
        exact absurd hq2 (by simp)
      · rfl
    · have hred := evalHealth_noprogress scenCStates rng q ctr c (by
        rw [h]
        norm_num [scenCStates]
        omega)
      rw [hred]
      constructor
      · intro q2 hq2
        injection hq2 with h2
        rw [← h2]
        exact Or.inr (Or.inr h)
      · rfl

theorem healthPassRev_ok (rng : Rng) (hv : validRng rng) :
    ∀ (ps : List Person) (ctr : DayCtr) (c : RC), okStates ps →
      okStates (healthPassRev scenCStates rng ps ctr c).1 ∧
      (healthPassRev scenCStates rng ps ctr c).2.1.recoveries = ctr.recoveries := by
  intro ps
  induction ps with
  | nil =>
    intro ctr c _
    exact ⟨fun q hq => absurd hq (List.not_mem_nil q), rfl⟩
  | cons q rest ih =>
    intro ctr c hok
    have hq : okState q.state := hok q (List.mem_cons_self q rest)
    have hrest : okStates rest := fun x hx => hok x (List.mem_cons_of_mem q hx)
    have he := evalHealth_scenC_ok rng hv q ctr c hq
    rcases hopt : (evalHealth scenCStates rng q ctr c).1 with _ | q1
    · have hred : healthPassRev scenCStates rng (q :: rest) ctr c =
          healthPassRev scenCStates rng rest
            (evalHealth scenCStates rng q ctr c).2.1
            (evalHealth scenCStates rng q ctr c).2.2 := by
        simp only [healthPassRev, hopt]
      rw [hred]
      have hih := ih (evalHealth scenCStates rng q ctr c).2.1
        (evalHealth scenCStates rng q ctr c).2.2 hrest
      exact ⟨hih.1, by rw [hih.2, he.2]⟩
    · have hred : healthPassRev scenCStates rng (q :: rest) ctr c =
          (q1 :: (healthPassRev scenCStates rng rest
              (evalHealth scenCStates rng q ctr c).2.1
              (evalHealth scenCStates rng q ctr c).2.2).1,
            (healthPassRev scenCStates rng rest
              (evalHealth scenCStates rng q ctr c).2.1
              (evalHealth scenCStates rng q ctr c).2.2).2.1,
            (healthPassRev scenCStates rng rest
              (evalHealth scenCStates rng q ctr c).2.1
              (evalHealth scenCStates rng q ctr c).2.2).2.2) := by
        simp only [healthPassRev, hopt]
      rw [hred]
      have hih := ih (evalHealth scenCStates rng q ctr c).2.1
        (evalHealth scenCStates rng q ctr c).2.2 hrest
      constructor
      · intro x hx
        rcases List.mem_cons.mp hx with h2 | h2
        · rw [h2]
          exact he.1 q1 hopt
        · exact hih.1 x h2
      · show (healthPassRev scenCStates rng rest _ _).2.1.recoveries = ctr.recoveries
        rw [hih.2, he.2]

theorem okStates_reverse (ps : List Person) (h : okStates ps) : okStates ps.reverse :=
  fun q hq => h q (List.mem_reverse.mp hq)

theorem healthPass_ok (rng : Rng) (hv : validRng rng) (ps : List Person)
    (ctr : DayCtr) (c : RC) (h : okStates ps) :
    okStates (healthPass scenCStates rng ps ctr c).1 ∧
    (healthPass scenCStates rng ps ctr c).2.1.recoveries = ctr.recoveries := by
  have hrev := healthPassRev_ok rng hv ps.reverse ctr c (okStates_reverse ps h)
  exact ⟨fun q hq => hrev.1 q (List.mem_reverse.mp hq), hrev.2⟩

theorem susLoop_ok (T : HState → StateDef) (rng : Rng) (p : ℚ) :
    ∀ (n : ℕ) (people : List Person) (i : ℕ) (ctr : DayCtr) (c : RC),
      okStates people →
      okStates (susLoop T rng p n people i ctr c).1 ∧
      (susLoop T rng p n people i ctr c).2.1.recoveries = ctr.recoveries := by
  intro n
  induction n with
  | zero => intro people i ctr c h; exact ⟨h, rfl⟩
  | succ m ih =>
    intro people i ctr c h
    simp only [susLoop, randBelow, randFloat]
    by_cases h1 : (people.getD (rng.ints c.ii % ctr.pop) default).state = contagious
    · rw [if_pos h1]
      by_cases h2 : rng.floats c.fi < p
      · rw [if_pos h2]
        constructor
        · intro x hx
          rcases mem_set_cases _ _ _ _ hx with hx2 | hx2
          · exact h x hx2
          · rw [hx2]
            exact Or.inr (Or.inl rfl)
        · rfl
      · rw [if_neg h2]
        exact ih people i ctr _ h
    · rw [if_neg h1]
      exact ih people i ctr _ h

theorem contagLoop_ok (T : HState → StateDef) (rng : Rng) (p : ℚ) :
    ∀ (n : ℕ) (people : List Person) (i : ℕ) (ctr : DayCtr) (c : RC),
      okStates people →
      okStates (contagLoop T rng p n people i ctr c).1 ∧
      (contagLoop T rng p n people i ctr c).2.1.recoveries = ctr.recoveries := by
  intro n
  induction n with
  | zero => intro people i ctr c h; exact ⟨h, rfl⟩
  | succ m ih =>
    intro people i ctr c h
    simp only [contagLoop, randBelow, randFloat]
    by_cases h1 : ((T (people.getD (rng.ints c.ii % ctr.pop) default).state).canBeInfected) = true
    · rw [if_pos h1]
      by_cases h2 : rng.floats c.fi < p
      · rw [if_pos h2]
        have hset : okStates (people.set (rng.ints c.ii % ctr.pop)
            { people.getD (rng.ints c.ii % ctr.pop) default with
              state := infected, days := 1 }) := by
          intro x hx
          rcases mem_set_cases _ _ _ _ hx with hx2 | hx2
          · exact h x hx2
          · rw [hx2]
            exact Or.inr (Or.inl rfl)
        exact ih _ i _ _ hset
      · rw [if_neg h2]
        exact ih people i ctr _ h
    · rw [if_neg h1]
      exact ih people i ctr _ h

theorem evaluate_contacts_ok (T : HState → StateDef) (rng : Rng) (p : ℚ)
    (contacts : ℕ) (people : List Person) (i : ℕ) (ctr : DayCtr) (c : RC)
    (h : okStates people) :
    okStates (evaluate_contacts T rng p contacts people i ctr c).1 ∧
    (evaluate_contacts T rng p contacts people i ctr c).2.1.recoveries = ctr.recoveries := by
  simp only [evaluate_contacts]
  by_cases h1 : (T (people.getD i default).state).canBeInfected = true
  · rw [if_pos h1]
    exact susLoop_ok T rng p (contacts / 2) people i ctr c h
  · rw [if_neg h1]
    by_cases h2 : (people.getD i default).state = contagious
    · rw [if_pos h2]
      exact contagLoop_ok T rng p (contacts / 2) people i ctr c h
    · rw [if_neg h2]
      exact ⟨h, rfl⟩

theorem contactPass_ok (T : HState → StateDef) (rng : Rng) (p : ℚ) (contacts : ℕ) :
    ∀ (rem : ℕ) (people : List Person) (i : ℕ) (ctr : DayCtr) (c : RC),
      okStates people →
      okStates (contactPass T rng p contacts people i rem ctr c).1 ∧
      (contactPass T rng p contacts people i rem ctr c).2.1.recoveries = ctr.recoveries := by
  intro rem
  induction rem with
  | zero => intro people i ctr c h; exact ⟨h, rfl⟩
  | succ m ih =>
    intro people i ctr c h
    have he := evaluate_contacts_ok T rng p contacts people i ctr c h
    have hih := ih (evaluate_contacts T rng p contacts people i ctr c).1 (i + 1)
      (evaluate_contacts T rng p contacts people i ctr c).2.1
      (evaluate_contacts T rng p contacts people i ctr c).2.2 he.1
    constructor
    · exact hih.1
    · show (contactPass T rng p contacts
          (evaluate_contacts T rng p contacts people i ctr c).1 (i + 1) m
          (evaluate_contacts T rng p contacts people i ctr c).2.1
          (evaluate_contacts T rng p contacts people i ctr c).2.2).2.1.recoveries =
        ctr.recoveries
      rw [hih.2, he.2]

theorem ex2Append_zeroRec (st : Ex2Stats) (day : ℕ) (ncase nrec ndeath : ℕ)
    (hr : nrec = 0) (h : zeroListZ st.cumulativeRecoveries) :
    zeroListZ (ex2StatsAppend st day ncase nrec ndeath).cumulativeRecoveries := by
  intro x hx
  have hfield : (ex2StatsAppend st day ncase nrec ndeath).cumulativeRecoveries =
      st.cumulativeRecoveries ++ [st.cumulativeRecoveries.getD day 0 + (nrec : ℤ)] := rfl
  rw [hfield] at hx
  rcases List.mem_append.mp hx with h2 | h2
  · exact h x h2
  · have h3 : x = st.cumulativeRecoveries.getD day 0 + (nrec : ℤ) := by simpa using h2
    rw [h3, zeroListZ_getD _ h day, hr]
    norm_num

theorem ex2DayStep_inv (rng : Rng) (hv : validRng rng) (contacts : ℕ) (p : ℚ)
    (st : Ex2State) (day : ℕ)
    (hok : okStates st.people) (hz : zeroListZ st.stats.cumulativeRecoveries) :
    okStates (ex2DayStep scenCStates rng contacts p st day).people ∧
    zeroListZ (ex2DayStep scenCStates rng contacts p st day).stats.cumulativeRecoveries := by
  have hH := healthPass_ok rng hv st.people
    { cases := 0, recoveries := 0, deaths := 0, pop := st.pop } st.c hok
  have hC := contactPass_ok scenCStates rng p contacts
    (healthPass scenCStates rng st.people
      { cases := 0, recoveries := 0, deaths := 0, pop := st.pop } st.c).1.length
    (healthPass scenCStates rng st.people
      { cases := 0, recoveries := 0, deaths := 0, pop := st.pop } st.c).1 0
    (healthPass scenCStates rng st.people
      { cases := 0, recoveries := 0, deaths := 0, pop := st.pop } st.c).2.1
    (healthPass scenCStates rng st.people
      { cases := 0, recoveries := 0, deaths := 0, pop := st.pop } st.c).2.2 hH.1
  constructor
  · exact hC.1
  · exact ex2Append_zeroRec st.stats day _ _ _ (by rw [hC.2, hH.2]) hz

theorem ex2Go_inv (rng : Rng) (hv : validRng rng) (contacts : ℕ) (p : ℚ) :
    ∀ (rem : ℕ) (st : Ex2State) (day : ℕ),
      okStates st.people → zeroListZ st.stats.cumulativeRecoveries →
      okStates (ex2Go scenCStates rng contacts p st day rem).people ∧
      zeroListZ (ex2Go scenCStates rng contacts p st day rem).stats.cumulativeRecoveries := by
  intro rem
  induction rem with
  | zero => intro st day h1 h2; exact ⟨h1, h2⟩
  | succ m ih =>
    intro st day h1 h2
    have hd := ex2DayStep_inv rng hv contacts p st day h1 h2
    exact ih (ex2DayStep scenCStates rng contacts p st day) (day + 1) hd.1 hd.2

theorem initialPeople_ok (P : ℕ) : okStates (initialPeople P) := by
  intro q hq
  simp only [initialPeople, List.mem_map] at hq
  obtain ⟨n, _, hn⟩ := hq
  rw [← hn]
  exact Or.inl rfl

theorem seedInitial_ok (rng : Rng) (P : ℕ) :
    ∀ (k : ℕ) (people : List Person) (c : RC), okStates people →
      okStates (seedInitial rng P k people c).1 := by
  intro k
  induction k with
  | zero => intro people c h; exact h
  | succ m ih =>
    intro people c h
    simp only [seedInitial, randBelow]
    apply ih
    intro x hx
    rcases mem_set_cases _ _ _ _ hx with h2 | h2
    · exact h x h2
    · rw [h2]
      exact Or.inr (Or.inr rfl)

/-- C7.  If the contagious state's death probability is 1.0 (Scenario C):
every individual whose contagious duration elapses dies (is removed from the
population, with the death counted and the population decremented); in the
whole run no individual ever reaches the `recovering` or `immune` state; and
the cumulative-recoveries series is identically zero, so its final entry is
0. -/
theorem scenarioC_all_contagious_die (rng : Rng) (hv : validRng rng)
    (P I D contacts : ℕ) (p : ℚ) :
    (∀ (q : Person) (ctr : DayCtr) (c : RC), q.state = contagious →
      (4 : ℤ) < ((q.days + 1 : ℕ) : ℤ) →
      evalHealth scenCStates rng q ctr c =
        (none, { ctr with deaths := ctr.deaths + 1, pop := ctr.pop - 1 },
          ⟨c.fi + 1, c.ii⟩)) ∧
    okStates (runEx2 ⟨scenCStates, P, I, D, contacts, p⟩ rng).people ∧
    zeroListZ (runEx2 ⟨scenCStates, P, I, D, contacts, p⟩ rng).stats.cumulativeRecoveries ∧
    (runEx2 ⟨scenCStates, P, I, D, contacts, p⟩ rng).stats.cumulativeRecoveries.getD
      ((runEx2 ⟨scenCStates, P, I, D, contacts,
        p⟩ rng).stats.cumulativeRecoveries.length - 1) 0 = 0 := by
  have hkill : ∀ (q : Person) (ctr : DayCtr) (c : RC), q.state = contagious →
      (4 : ℤ) < ((q.days + 1 : ℕ) : ℤ) →
      evalHealth scenCStates rng q ctr c =
        (none, { ctr with deaths := ctr.deaths + 1, pop := ctr.pop - 1 },
          ⟨c.fi + 1, c.ii⟩) := by
    intro q ctr c hq helapsed
    refine evalHealth_dies scenCStates rng q ctr c ?_ ?_ ?_
    · rw [hq]
      constructor
      · norm_num [scenCStates]
      · simpa [scenCStates] using helapsed
    · rw [hq]
      norm_num [scenCStates]
    · rw [hq]
      show rng.floats c.fi < (1 : ℚ)
      exact (hv c.fi).2
  have hok0 : okStates (seedInitial rng P I (initialPeople P) ⟨0, 0⟩).1 :=
    seedInitial_ok rng P I (initialPeople P) ⟨0, 0⟩ (initialPeople_ok P)
  have hz0 : zeroListZ (ex2StatsInit I).cumulativeRecoveries := by
    intro x hx
    simpa [ex2StatsInit] using hx
  have hrun := ex2Go_inv rng hv contacts p D
    { people := (seedInitial rng P I (initialPeople P) ⟨0, 0⟩).1, pop := P,
      c := (seedInitial rng P I (initialPeople P) ⟨0, 0⟩).2,
      stats := ex2StatsInit I } 0 hok0 hz0
  exact ⟨hkill, hrun.1, hrun.2, zeroListZ_getD _ hrun.2 _⟩

/-- Concrete random source for the C7 witness. -/
def rngW7 : Rng := ⟨fun _ => 0, fun _ => 0⟩

/-- Witness for C7: the Scenario C run at a concrete small configuration
under a concrete valid random source. -/
theorem scenarioC_all_contagious_die_witness :
    validRng rngW7 ∧
    okStates (runEx2 ⟨scenCStates, 3, 1, 7, 0, 0⟩ rngW7).people ∧
    zeroListZ (runEx2 ⟨scenCStates, 3, 1, 7, 0, 0⟩ rngW7).stats.cumulativeRecoveries := by
  have hv : validRng rngW7 := fun i => ⟨le_refl 0, by norm_num [rngW7]⟩
  exact ⟨hv, (scenarioC_all_contagious_die rngW7 hv 3 1 7 0 0).2.1,
    (scenarioC_all_contagious_die rngW7 hv 3 1 7 0 0).2.2.1⟩
